import Mathlib

/-!
Shallow embedding of `pytesmo/validation_framework/validation.py`
(class `Validation`, chiefly the method `calc`).

Modelling conventions:
* pandas DataFrames with a two-level column index (dataset name, column
  name) become `MTable`; after `droplevel`/`rename` they become `PTable`
  with single string column labels.  Cell values are opaque `Int`s.
* Python dicts (which iterate in insertion order) become association
  lists; dict assignment is `upsert`, dict lookup is `lookupA`.
* Exceptions (`KeyError` from dict lookup / column selection,
  `ValueError` from `list.index`, `IndexError` from `[0]`) become
  `Except String`; a caught-and-skipped exception path becomes an
  `Option`/skip value instead.
* External collaborators (data manager, grid, temporal matcher, scaling
  transform, metric calculators, result-name generator) are function
  fields of the `Validation` structure, exactly the attributes `calc`
  reads from `self`.
* To let theorems speak about which external calls happen, the embedding
  additionally threads two call logs: the list of `n` arguments passed
  to the temporal matcher and the list of (result name, point meta)
  arguments passed to metric calculators.  The logs record precisely the
  call sites in the source and change no computed value.
-/

namespace Pytesmo

/-- A matched DataFrame: two-level columns (dataset name, column name). -/
structure MTable where
  cols : List (String × String)
  rows : List (List Int)
deriving DecidableEq, Repr

/-- A DataFrame after `droplevel`/`rename`: single-level string columns. -/
structure PTable where
  cols : List String
  rows : List (List Int)
deriving DecidableEq, Repr

/-- The mapping returned by one temporal-matching call: insertion-ordered
dict from dataset-key tuple to matched DataFrame. -/
abbrev Matched := List (List String × MTable)

/-- A result name: ordered (dataset name, column name) pairs. -/
abbrev ResultName := List (String × String)

/-- One field of a per-point metric result: a (single-element) array with
a dtype tag. -/
structure Field where
  vals : List Int
  dtype : String
deriving DecidableEq, Repr

/-- A per-point metric result: dict from field name to array. -/
abbrev PPResult := List (String × Field)

/-- The dict of per-dataset tables returned by `data_manager.get_data`;
only its emptiness and its being handed to the matcher matter here. -/
abbrev DfDict := List (String × List Int)

/-- Point meta `gpi_meta`: either the resolved (gpi, lon, lat) triple (cell-based
jobs) or the original job tuple (point-based jobs). -/
abbrev Meta := (Int × Int × Int) ⊕ (List Int)

/-- A metric calculator: takes the role-labelled table and the point
meta, returns a per-point result dict. -/
abbrev MetricCalc := PTable → Meta → PPResult

/-- Association-list lookup (Python dict read `d[k]`, first match). -/
def lookupA {α β : Type} [DecidableEq α] : List (α × β) → α → Option β
  | [], _ => none
  | (k, v) :: rest, key => if k = key then some v else lookupA rest key

/-- Association-list write (Python dict assignment `d[k] = v`): replaces
the value of an existing key in place, else appends. -/
def upsert {α β : Type} [DecidableEq α] : List (α × β) → α → β → List (α × β)
  | [], k, v => [(k, v)]
  | (k0, v0) :: rest, k, v =>
      if k0 = k then (k0, v) :: rest else (k0, v0) :: upsert rest k v

/-- Role label, `f = lambda x: "k" + str(x) if x > 0 else 'ref'`. -/
def roleLabel (i : Nat) : String :=
  if 0 < i then "k" ++ toString i else "ref"

/-- The loop `for i, r in enumerate(result): rename_dict[r[0]] = f(i)`,
with the running index and accumulated dict explicit. -/
def buildRenameDictAux : List (String × String) → Nat →
    List (String × String) → List (String × String)
  | [], _, acc => acc
  | r :: rest, i, acc => buildRenameDictAux rest (i + 1) (upsert acc r.1 (roleLabel i))

/-- The dict `rename_dict` as built from a result name (keyed by dataset name, so
a repeated dataset name keeps only its last position's role label). -/
def buildRenameDict (result : ResultName) : List (String × String) :=
  buildRenameDictAux result 0 []

/-- The tuple `dskey`: the dataset-name parts of a result name. -/
def dskeyOf (result : ResultName) : List String :=
  result.map Prod.fst

/-- The comprehension `first_match = [key for key in n_matched_data if dskey[0] == key[0]]` -/
def firstMatch (keys : List (List String)) (d0 : String) : List (List String) :=
  keys.filter (fun key => decide (key.headI = d0))

/-- The loop
```
found_key = None
for key in first_match:
    for dsk in dskey[1:]:
        if dsk not in key:
            continue
    found_key = key
```
The `continue` targets the inner loop, whose body has no other effect,
so the membership test never prevents `found_key = key`; the assignment
runs for every candidate and the last one survives. -/
def foundKey (dskeyTail : List String) (fm : List (List String)) :
    Option (List String) :=
  fm.foldl
    (fun _fk key =>
      let _tests := dskeyTail.map (fun dsk => decide (dsk ∈ key))
      some key)
    none

/-- Lines 199–218 of `validation.py`: select the matched bucket for a
requested dataset key.  `n = k` does a direct dict lookup (`KeyError` on
absence); `n ≠ k` scans `first_match` as above and then looks up
`found_key` (`KeyError` when it is still `None`). -/
def resolveData (n k : Nat) (nMatched : Matched) (dskey : List String) :
    Except String MTable :=
  if n = k then
    match lookupA nMatched dskey with
    | some d => .ok d
    | none => .error "KeyError"
  else
    let fm := firstMatch (nMatched.map Prod.fst) dskey.headI
    match foundKey dskey.tail fm with
    | some key =>
        match lookupA nMatched key with
        | some d => .ok d
        | none => .error "KeyError"
    | none => .error "KeyError"

/-- Indices of the requested columns inside a matched table's columns,
`none` when one is missing (pandas raises `KeyError` on
`data[[x for x in result]]` then). -/
def colIdxs (cols : List (String × String)) : ResultName → Option (List Nat)
  | [] => some []
  | c :: rest =>
      match cols.findIdx? (fun x => decide (x = c)), colIdxs cols rest with
      | some i, some is => some (i :: is)
      | _, _ => none

/-- Column projection `data = data[[x for x in result]]`: restrict to the requested
columns, in the requested order. -/
def projectCols (t : MTable) (result : ResultName) : Except String MTable :=
  match colIdxs t.cols result with
  | some idxs =>
      .ok ⟨result, t.rows.map (fun row => idxs.map (fun i => row.getD i 0))⟩
  | none => .error "KeyError"

/-- The steps `data.columns = data.columns.droplevel(level=1)` followed by
`data.rename(columns=rename_dict, inplace=True)`: keep the dataset-name
level and map it through `rename_dict` (labels absent from the dict are
left unchanged, as pandas `rename` does). -/
def droplevelRename (t : MTable) (renameD : List (String × String)) : PTable :=
  ⟨(t.cols.map Prod.fst).map (fun c => (lookupA renameD c).getD c), t.rows⟩

/-- The column labels a result name's projected table ends up with after
`droplevel` and `rename` (the projection sets the columns to exactly the
requested pairs, so only the dataset-name parts and `rename_dict`
matter). -/
def renamedCols (result : ResultName) : List String :=
  (result.map Prod.fst).map (fun c => (lookupA (buildRenameDict result) c).getD c)

/-- External collaborators and configuration read by `calc` from `self`,
with the source's attribute names. -/
structure Validation where
  get_data : Int → Int → Int → DfDict
  grid_points_for_cell : List Int → List (Int × Int × Int)
  temp_matching : DfDict → String → Nat → Matched
  temporal_ref : String
  metrics_c : List ((Nat × Nat) × MetricCalc)
  scaling : Option String
  scale : String → PTable → Nat → Option PTable
  scaling_ref : String
  cell_based_jobs : Bool
  get_result_names : Nat → List ResultName

/-- Accumulated per-point results: dict from result name to the list of
per-point metric outputs, in insertion/append order. -/
abbrev Results := List (ResultName × List PPResult)

/-- Accumulation `if result not in results: results[result] = []` followed by
`results[result].append(pp)`. -/
def resultsAppend : Results → ResultName → PPResult → Results
  | [], name, pp => [(name, [pp])]
  | (n0, ps) :: rest, name, pp =>
      if n0 = name then (n0, ps ++ [pp]) :: rest
      else (n0, ps) :: resultsAppend rest name pp

/-- Metric-invocation log entries: the result name and the `gpi_meta`
argument of each metric-calculator call. -/
abbrev MetricLog := List (ResultName × Meta)

/-- The body of `for result in get_result_names(...)` (lines 189–248):
resolve the bucket, project, relabel, optionally scale, and run the
metric calculator.  Returns `.ok none` on a skipped combination
(`continue`), `.ok (some _)` with the appended result on success, and
`.error` on an uncaught exception. -/
def stepResult (v : Validation) (nk : Nat × Nat) (calcFn : MetricCalc)
    (nMatched : Matched) (meta : Meta) (result : ResultName) :
    Except String (Option (ResultName × PPResult)) :=
  let dskey := dskeyOf result
  let renameD := buildRenameDict result
  match resolveData nk.1 nk.2 nMatched dskey with
  | .error e => .error e
  | .ok data0 =>
    match projectCols data0 result with
    | .error e => .error e
    | .ok data1 =>
      let data := droplevelRename data1 renameD
      if data.rows.length = 0 then .ok none
      else
        match v.scaling with
        | none => .ok (some (result, calcFn data meta))
        | some method =>
          -- scaling_index = data.columns.tolist().index(rename_dict[self.scaling_ref])
          match lookupA renameD v.scaling_ref with
          | none => .error "KeyError"
          | some lbl =>
            match data.cols.findIdx? (fun c => decide (c = lbl)) with
            | none => .error "ValueError"
            | some scalingIndex =>
              match v.scale method data scalingIndex with
              | none => .ok none  -- except ValueError: continue
              | some scaled => .ok (some (result, calcFn scaled meta))

/-- The loop over `get_result_names(self.data_manager.ds_dict,
self.temporal_ref, n=k)`, threading the accumulated results and the
metric-call log. -/
def runResults (v : Validation) (nk : Nat × Nat) (calcFn : MetricCalc)
    (nMatched : Matched) (meta : Meta) (acc : Results) (log : MetricLog) :
    List ResultName → Except String (Results × MetricLog)
  | [] => .ok (acc, log)
  | r :: rest =>
      match stepResult v nk calcFn nMatched meta r with
      | .error e => .error e
      | .ok none => runResults v nk calcFn nMatched meta acc log rest
      | .ok (some (name, pp)) =>
          runResults v nk calcFn nMatched meta
            (resultsAppend acc name pp) (log ++ [(name, meta)]) rest

/-- Lines 176–182: `for n, k in self.metrics_c: matched_n[(n, k)] =
self.temp_matching(df_dict, self.temporal_ref, n=n)`.  The second
component records the `n` argument of each matcher call, in call
order. -/
def buildMatchedN (matcher : DfDict → String → Nat → Matched)
    (df : DfDict) (tref : String) :
    List (Nat × Nat) → List ((Nat × Nat) × Matched) × List Nat
  | [] => ([], [])
  | (n, k) :: rest =>
      let md := matcher df tref n
      let (m, calls) := buildMatchedN matcher df tref rest
      (((n, k), md) :: m, n :: calls)

/-- Lines 184–248: `for n, k in self.metrics_c:` — fetch
`matched_n[(n, k)]` (present by construction of `matched_n`) and the
calculator `self.metrics_c[(n, k)]` (the iterated entry's own value,
since dict keys are unique) and run the result-name loop. -/
def runMetrics (v : Validation) (matchedN : List ((Nat × Nat) × Matched))
    (meta : Meta) (acc : Results) (log : MetricLog) :
    List ((Nat × Nat) × MetricCalc) → Except String (Results × MetricLog)
  | [] => .ok (acc, log)
  | (nk, calcFn) :: rest =>
      let nMatched := (lookupA matchedN nk).getD []
      match runResults v nk calcFn nMatched meta acc log (v.get_result_names nk.2) with
      | .error e => .error e
      | .ok (acc2, log2) => runMetrics v matchedN meta acc2 log2 rest

/-- One iteration of `for gpi_info in zip(...)` (lines 158–248): compute
`gpi_meta`, fetch the data dict, skip the point when it is empty, else
temporally match and run all metric combinations.  Also threads the
matcher-call log. -/
def processPoint (v : Validation) (job : List Int) (gpiInfo : Int × Int × Int)
    (acc : Results) (mlog : List Nat) (clog : MetricLog) :
    Except String (Results × List Nat × MetricLog) :=
  let meta : Meta := if v.cell_based_jobs then Sum.inl gpiInfo else Sum.inr job
  let dfDict := v.get_data gpiInfo.1 gpiInfo.2.1 gpiInfo.2.2
  if dfDict.length = 0 then .ok (acc, mlog, clog)
  else
    let (matchedN, calls) :=
      buildMatchedN v.temp_matching dfDict v.temporal_ref (v.metrics_c.map Prod.fst)
    match runMetrics v matchedN meta acc clog v.metrics_c with
    | .error e => .error e
    | .ok (acc2, clog2) => .ok (acc2, mlog ++ calls, clog2)

/-- The points loop of `calc`. -/
def processPoints (v : Validation) (job : List Int)
    (acc : Results) (mlog : List Nat) (clog : MetricLog) :
    List (Int × Int × Int) → Except String (Results × List Nat × MetricLog)
  | [] => .ok (acc, mlog, clog)
  | p :: rest =>
      match processPoint v job p acc mlog clog with
      | .error e => .error e
      | .ok (acc2, mlog2, clog2) => processPoints v job acc2 mlog2 clog2 rest

/-- One entry `entries.append(result[field_name][0])` for one per-point result:
dict read (`KeyError` on a missing field) then element 0 (`IndexError`
on an empty array). -/
def entryFor (fname : String) (r : PPResult) : Except String Int :=
  match lookupA r fname with
  | none => .error "KeyError"
  | some g =>
      match g.vals.head? with
      | none => .error "IndexError"
      | some x => .ok x

/-- The `for result in results[key]` loop collecting `entries`. -/
def entriesFor (fname : String) : List PPResult → Except String (List Int)
  | [] => .ok []
  | r :: rs =>
      match entryFor fname r, entriesFor fname rs with
      | .ok x, .ok xs => .ok (x :: xs)
      | .error e, _ => .error e
      | _, .error e => .error e

/-- The `for field_name in results[key][0].keys()` loop: each field of
the first per-point result becomes an array of the per-point entries
with the first result's dtype. -/
def aggFields (rs : List PPResult) : List (String × Field) →
    Except String (List (String × Field))
  | [] => .ok []
  | (fname, fv) :: fields =>
      match entriesFor fname rs, aggFields rs fields with
      | .ok es, .ok out => .ok ((fname, ⟨es, fv.dtype⟩) :: out)
      | .error e, _ => .error e
      | _, .error e => .error e

/-- Aggregation of one result name's list of per-point results
(`results[key][0]` raises `IndexError` on an empty list, which cannot
occur since lists are created non-empty). -/
def aggregateOne (rs : List PPResult) : Except String (List (String × Field)) :=
  match rs with
  | [] => .error "IndexError"
  | r0 :: _ => aggFields rs r0

/-- Lines 250–258: build `compact_results` from `results`, key by key in
insertion order. -/
def compactResults : Results → Except String (List (ResultName × List (String × Field)))
  | [] => .ok []
  | (name, rs) :: rest =>
      match aggregateOne rs, compactResults rest with
      | .ok f, .ok c => .ok ((name, f) :: c)
      | .error e, _ => .error e
      | _, .error e => .error e

/-- What `calc` produces: the compact results plus the two call logs. -/
structure CalcOut where
  compact : List (ResultName × List (String × Field))
  matcherLog : List Nat
  metricLog : MetricLog
deriving DecidableEq

/-- The method `Validation.calc` (lines 133–260): enumerate the job's points,
process each, aggregate. -/
def calcMethod (v : Validation) (job : List Int) : Except String CalcOut :=
  let pts :=
    if v.cell_based_jobs then v.grid_points_for_cell job
    else [(job.getD 0 0, job.getD 1 0, job.getD 2 0)]
  match processPoints v job [] [] [] pts with
  | .error e => .error e
  | .ok (results, mlog, clog) =>
      match compactResults results with
      | .error e => .error e
      | .ok c => .ok ⟨c, mlog, clog⟩

/-- The method `calc` as a state transformer on the object: the method reads the
fields embedded in `Validation` and assigns none of them, so the state
it leaves behind is the state it received. -/
def calcSt (v : Validation) (job : List Int) :
    Validation × Except String CalcOut :=
  (v, calcMethod v job)

/-- Example matched table keyed by the datasets A, B, C. -/
def tABC : MTable := ⟨[("A", "c"), ("B", "c"), ("C", "c")], [[1, 2, 3]]⟩

/-- Example matched table keyed by the datasets A, B, X. -/
def tABX : MTable := ⟨[("A", "c"), ("B", "c"), ("X", "c")], [[4, 5, 6]]⟩

/-- A point-based configuration whose matcher returns no buckets, so
every requested combination is absent from the matched data. -/
def vNoBuckets : Validation where
  get_data := fun _ _ _ => [("A", [0]), ("B", [0])]
  grid_points_for_cell := fun _ => []
  temp_matching := fun _ _ _ => []
  temporal_ref := "A"
  metrics_c := [((2, 2), fun _ _ => [("n_obs", ⟨[1], "int32"⟩)])]
  scaling := none
  scale := fun _ t _ => some t
  scaling_ref := "A"
  cell_based_jobs := false
  get_result_names := fun _ => [[("A", "c"), ("B", "c")]]

/-- Example matched table for the datasets A and B. -/
def mtAB : MTable := ⟨[("A", "c"), ("B", "c")], [[10, 20]]⟩

/-- A point-based configuration that processes one point end to end:
two datasets, one matched bucket, one (2, 2) metric counting rows, no
scaling. -/
def vPointEx : Validation where
  get_data := fun _ _ _ => [("A", [0]), ("B", [0])]
  grid_points_for_cell := fun _ => []
  temp_matching := fun _ _ _ => [(["A", "B"], mtAB)]
  temporal_ref := "A"
  metrics_c := [((2, 2), fun t _ => [("n_obs", ⟨[(t.rows.length : Int)], "int32"⟩)])]
  scaling := none
  scale := fun _ t _ => some t
  scaling_ref := "A"
  cell_based_jobs := false
  get_result_names := fun _ => [[("A", "c"), ("B", "c")]]

/-- The output of `calcMethod vPointEx [7, 1, 2]`. -/
def outPointEx : CalcOut :=
  ⟨[([("A", "c"), ("B", "c")], [("n_obs", ⟨[1], "int32"⟩)])],
   [2],
   [([("A", "c"), ("B", "c")], Sum.inr [7, 1, 2])]⟩

/-- Like `vPointEx` but with scaling configured and a scaling transform
that reports infeasibility on every input. -/
def vScaleFail : Validation where
  get_data := fun _ _ _ => [("A", [0]), ("B", [0])]
  grid_points_for_cell := fun _ => []
  temp_matching := fun _ _ _ => [(["A", "B"], mtAB)]
  temporal_ref := "A"
  metrics_c := [((2, 2), fun t _ => [("n_obs", ⟨[(t.rows.length : Int)], "int32"⟩)])]
  scaling := some "lin_cdf_match"
  scale := fun _ _ _ => none
  scaling_ref := "A"
  cell_based_jobs := false
  get_result_names := fun _ => [[("A", "c"), ("B", "c")]]

/-- A cell-based configuration whose data manager returns an empty dict
at every point. -/
def vEmptyData : Validation where
  get_data := fun _ _ _ => []
  grid_points_for_cell := fun _ => [(0, 0, 0), (1, 0, 0)]
  temp_matching := fun _ _ _ => []
  temporal_ref := "A"
  metrics_c := [((2, 2), fun _ _ => [("n_obs", ⟨[1], "int32"⟩)])]
  scaling := none
  scale := fun _ t _ => some t
  scaling_ref := "A"
  cell_based_jobs := true
  get_result_names := fun _ => [[("A", "c"), ("B", "c")]]

end Pytesmo

namespace Pytesmo

/-! ## Helper lemmas -/

theorem lookupA_upsert_self {α β : Type} [DecidableEq α]
    (d : List (α × β)) (k : α) (v : β) :
    lookupA (upsert d k v) k = some v := by
  induction d with
  | nil => simp [upsert, lookupA]
  | cons p rest ih =>
      obtain ⟨k0, v0⟩ := p
      by_cases h : k0 = k
      · simp [upsert, h, lookupA]
      · simp [upsert, h, lookupA, ih]

theorem lookupA_upsert_ne {α β : Type} [DecidableEq α]
    (d : List (α × β)) (k k' : α) (v : β) (h : k' ≠ k) :
    lookupA (upsert d k v) k' = lookupA d k' := by
  induction d with
  | nil =>
      simp only [upsert, lookupA]
      rw [if_neg (fun hh => h hh.symm)]
  | cons p rest ih =>
      obtain ⟨k0, v0⟩ := p
      by_cases h0 : k0 = k
      · subst h0
        simp only [upsert, if_pos rfl, lookupA]
        rw [if_neg (fun hh => h hh.symm), if_neg (fun hh => h hh.symm)]
      · simp only [upsert, if_neg h0, lookupA]
        by_cases h1 : k0 = k'
        · simp [h1]
        · simp [h1, ih]

theorem lookupA_buildRenameDictAux_notin (rs : List (String × String)) (i : Nat)
    (acc : List (String × String)) (name : String)
    (h : name ∉ rs.map Prod.fst) :
    lookupA (buildRenameDictAux rs i acc) name = lookupA acc name := by
  induction rs generalizing i acc with
  | nil => rfl
  | cons r rest ih =>
      rw [List.map_cons, List.mem_cons] at h
      push_neg at h
      calc lookupA (buildRenameDictAux (r :: rest) i acc) name
          = lookupA (upsert acc r.1 (roleLabel i)) name := ih (i + 1) _ h.2
        _ = lookupA acc name := lookupA_upsert_ne _ _ _ _ h.1

theorem lookupA_buildRenameDictAux_get (rs : List (String × String)) (i : Nat)
    (acc : List (String × String)) (h : (rs.map Prod.fst).Nodup) (j : Nat)
    (hj : j < rs.length) :
    lookupA (buildRenameDictAux rs i acc) (rs.get ⟨j, hj⟩).1
      = some (roleLabel (i + j)) := by
  induction rs generalizing i acc j with
  | nil => exact absurd hj (by simp)
  | cons r rest ih =>
      rw [List.map_cons, List.nodup_cons] at h
      cases j with
      | zero =>
          have h1 : (r :: rest).get ⟨0, hj⟩ = r := rfl
          rw [h1]
          calc lookupA (buildRenameDictAux (r :: rest) i acc) r.1
              = lookupA (upsert acc r.1 (roleLabel i)) r.1 :=
                lookupA_buildRenameDictAux_notin rest (i + 1) _ r.1 h.1
            _ = some (roleLabel i) := lookupA_upsert_self _ _ _
      | succ j =>
          have h1 : (r :: rest).get ⟨j + 1, hj⟩
              = rest.get ⟨j, Nat.lt_of_succ_lt_succ hj⟩ := rfl
          rw [h1]
          have h2 := ih (i + 1) (upsert acc r.1 (roleLabel i)) h.2 j
            (Nat.lt_of_succ_lt_succ hj)
          have h3 : i + 1 + j = i + (j + 1) := by omega
          rw [h3] at h2
          exact h2

/-! ## C1 -/

/-- C1: the claim is that an n>k request selects a bucket only if every
remaining requested dataset name appears in the bucket's key, last such
candidate winning.  The code's inner membership loop is inert (its
`continue` targets the inner loop itself), so with buckets keyed
`(A,B,C)` then `(A,B,X)` and requested dataset key `(A,C)` (n = 3,
k = 2) the resolver returns the `(A,B,X)` bucket — the last bucket
whose first element is `A` — even though its key does not contain the
requested dataset `C`; the code's own comment ("also has the rest of
the requested datasets in the key") and the claim demand the `(A,B,C)`
bucket. -/
theorem resolver_containment_test_is_inert :
    resolveData 3 2 [(["A", "B", "C"], tABC), (["A", "B", "X"], tABX)] ["A", "C"]
        = .ok tABX
    ∧ "C" ∉ (["A", "B", "X"] : List String) :=
  ⟨rfl, by decide⟩

/-! ## C2 -/

/-- C2 counterexample: with no matched buckets the requested key
`(A,B)` (n = k = 2) is absent; `calc` propagates the `KeyError` from
`matched[dskey]` instead of skipping the result and returning an empty
mapping. -/
theorem calc_raises_on_absent_combination :
    calcMethod vNoBuckets [1, 2, 3] = .error "KeyError" := rfl

/-- C2 (amended): an absent dataset-key combination is fatal, not a
silent skip: with n = k the direct dict lookup raises `KeyError`; with
n ≠ k and no bucket whose key starts with the requested first dataset
name, `found_key` stays `None` and `matched[None]` raises `KeyError`,
which propagates out of `calc`. -/
theorem resolveData_absent_is_error (n k : Nat) (nMatched : Matched)
    (dskey : List String) :
    (n = k → lookupA nMatched dskey = none →
      resolveData n k nMatched dskey = .error "KeyError")
    ∧ (n ≠ k → firstMatch (nMatched.map Prod.fst) dskey.headI = [] →
      resolveData n k nMatched dskey = .error "KeyError") := by
  constructor
  · intro hnk hl
    simp [resolveData, hnk, hl]
  · intro hnk hfm
    simp [resolveData, hnk, hfm, foundKey]

/-- Witness for the amended C2 theorem at concrete inputs: an empty
matched mapping makes both the exact lookup and the n>k search fail. -/
theorem resolveData_absent_is_error_witness :
    resolveData 2 2 [] ["A", "B"] = .error "KeyError"
    ∧ resolveData 3 2 [] ["A", "B"] = .error "KeyError" :=
  ⟨(resolveData_absent_is_error 2 2 [] ["A", "B"]).1 rfl rfl,
   (resolveData_absent_is_error 3 2 [] ["A", "B"]).2 (by decide) rfl⟩

/-! ## C3 -/

/-- C3 (amended): building `matched_n` calls the temporal matcher once
per `(n, k)` key of the metrics registry, in iteration order, passing
that entry's `n` — not once per distinct `n`. -/
theorem buildMatchedN_one_call_per_registry_key
    (matcher : DfDict → String → Nat → Matched) (df : DfDict) (tref : String)
    (keys : List (Nat × Nat)) :
    (buildMatchedN matcher df tref keys).2 = keys.map Prod.fst := by
  induction keys with
  | nil => rfl
  | cons hd rest ih =>
      obtain ⟨n, k⟩ := hd
      cases h : buildMatchedN matcher df tref rest with
      | mk m calls =>
          rw [h] at ih
          simp only [buildMatchedN, h, List.map_cons]
          simpa using ih

/-- C3 counterexample: for a registry with the two keys `(3, 3)` and
`(3, 2)` the matcher is invoked twice with `n = 3` (the call log is
`[3, 3]`, which has a duplicate entry), not once for the single
distinct `n` as the claim states. -/
theorem matcher_called_twice_for_shared_n :
    (buildMatchedN (fun _ _ _ => []) [("A", [0])] "A" [(3, 3), (3, 2)]).2 = [3, 3]
    ∧ ¬ ((buildMatchedN (fun _ _ _ => []) [("A", [0])] "A"
          [(3, 3), (3, 2)]).2).Nodup := by
  refine ⟨rfl, ?_⟩
  have h0 : (buildMatchedN (fun _ _ _ => []) [("A", [0])] "A"
      [(3, 3), (3, 2)]).2 = [3, 3] := rfl
  rw [h0]
  decide

/-! ## C4 -/

/-- C4 (amended): for a result name whose dataset names are pairwise
distinct, relabeling is stable: the column at position 0 becomes `ref`
and the column at position i becomes `k` followed by i (so the roles
are exactly `ref, k1, k2, …` in position order). -/
theorem renamedCols_stable (result : ResultName)
    (h : (result.map Prod.fst).Nodup) :
    renamedCols result = (List.range result.length).map roleLabel := by
  apply List.ext_get
  · simp [renamedCols]
  · intro j h1 h2
    have hj : j < result.length := by simpa [renamedCols] using h1
    have hg := lookupA_buildRenameDictAux_get result 0 [] h j hj
    simp only [Nat.zero_add, List.get_eq_getElem] at hg
    simp [renamedCols, List.getElem_map, buildRenameDict, hg]

/-- Witness for the amended C4 theorem: three distinct dataset names
relabel to `ref, k1, k2`. -/
theorem renamedCols_stable_witness :
    renamedCols [("A", "c1"), ("B", "c2"), ("C", "c3")]
      = (List.range ([("A", "c1"), ("B", "c2"), ("C", "c3")] : ResultName).length).map
          roleLabel :=
  renamedCols_stable _ (by decide)

/-- C4 counterexample: with the same dataset name at two positions,
`rename_dict` is keyed by dataset name, so the later position's label
overwrites the earlier one: both columns are relabelled `k1` and the
position-0 column is not labelled `ref`, so the relabeling is neither
stable nor bijective. -/
theorem renamedCols_duplicate_dataset_cex :
    renamedCols [("A", "c1"), ("A", "c2")] = ["k1", "k1"]
    ∧ renamedCols [("A", "c1"), ("A", "c2")] ≠ ["ref", "k1"] := by
  constructor
  · rfl
  · decide

/-! ## C5 -/

theorem processPoints_no_data (v : Validation) (job : List Int)
    (h : ∀ g lo la, v.get_data g lo la = []) :
    ∀ pts acc mlog clog,
      processPoints v job acc mlog clog pts = .ok (acc, mlog, clog) := by
  intro pts
  induction pts with
  | nil => intro acc mlog clog; rfl
  | cons p rest ih =>
      intro acc mlog clog
      simp [processPoints, processPoint, h, ih]

/-- C5: when the data manager returns an empty dict at every point,
every point is skipped before matching (no matcher call, no metric
call) and `calc` returns an empty mapping instead of raising. -/
theorem calc_empty_on_no_data (v : Validation) (job : List Int)
    (h : ∀ g lo la, v.get_data g lo la = []) :
    calcMethod v job = .ok ⟨[], [], []⟩ := by
  simp [calcMethod, processPoints_no_data v job h, compactResults]

/-- Witness for the C5 theorem: a concrete two-point cell job with an
empty data dict everywhere yields the empty compact result and empty
call logs. -/
theorem calc_empty_on_no_data_witness :
    calcMethod vEmptyData [2] = .ok ⟨[], [], []⟩ :=
  calc_empty_on_no_data vEmptyData [2] (fun _ _ _ => rfl)

/-! ## C6 -/

theorem entriesFor_ok_of_present (fname : String) (rs : List PPResult)
    (h : ∀ r ∈ rs, ∃ g, lookupA r fname = some g ∧ g.vals ≠ []) :
    entriesFor fname rs
      = .ok (rs.map (fun r => ((lookupA r fname).getD ⟨[], ""⟩).vals.headI)) := by
  induction rs with
  | nil => rfl
  | cons r rest ih =>
      obtain ⟨g, hg, hv⟩ := h r (by simp)
      have hrest : ∀ r' ∈ rest, ∃ g', lookupA r' fname = some g' ∧ g'.vals ≠ [] :=
        fun r' hr' => h r' (by simp [hr'])
      cases gv : g.vals with
      | nil => exact absurd gv hv
      | cons a t =>
          simp [entriesFor, entryFor, hg, gv, ih hrest]

theorem aggFields_ok_of_present (rs : List PPResult) (fields : List (String × Field))
    (h : ∀ p ∈ fields, ∀ r ∈ rs, ∃ g, lookupA r p.1 = some g ∧ g.vals ≠ []) :
    aggFields rs fields
      = .ok (fields.map (fun p =>
          (p.1, ⟨rs.map (fun r => ((lookupA r p.1).getD ⟨[], ""⟩).vals.headI),
            p.2.dtype⟩))) := by
  induction fields with
  | nil => rfl
  | cons p fields ih =>
      obtain ⟨fname, fv⟩ := p
      have h1 : ∀ r ∈ rs, ∃ g, lookupA r fname = some g ∧ g.vals ≠ [] :=
        fun r hr => h (fname, fv) (by simp) r hr
      have h2 : ∀ q ∈ fields, ∀ r ∈ rs, ∃ g, lookupA r q.1 = some g ∧ g.vals ≠ [] :=
        fun q hq r hr => h q (by simp [hq]) r hr
      simp [aggFields, entriesFor_ok_of_present fname rs h1, ih h2]

/-- C6: when every collected per-point result carries every field of
the first result (each with a non-empty value array), aggregation maps
each field name of the first result to the ordered list of the
per-point values' first entries (in collection order) tagged with the
first result's dtype for that field. -/
theorem aggregateOne_first_result_shape (r0 : PPResult) (rest : List PPResult)
    (h : ∀ p ∈ r0, ∀ r ∈ r0 :: rest, ∃ g, lookupA r p.1 = some g ∧ g.vals ≠ []) :
    aggregateOne (r0 :: rest)
      = .ok (r0.map (fun p =>
          (p.1, ⟨(r0 :: rest).map
              (fun r => ((lookupA r p.1).getD ⟨[], ""⟩).vals.headI),
            p.2.dtype⟩))) := by
  show aggFields (r0 :: rest) r0 = _
  exact aggFields_ok_of_present (r0 :: rest) r0 (fun p hp r hr => h p hp r hr)

/-- Witness for the C6 theorem: two per-point results with the shared
field `n_obs` aggregate to the ordered entries `[3, 5]` with the first
result's dtype. -/
theorem aggregateOne_first_result_shape_witness :
    aggregateOne [[("n_obs", (⟨[3], "int32"⟩ : Field))], [("n_obs", ⟨[5], "int64"⟩)]]
      = .ok [("n_obs", ⟨[3, 5], "int32"⟩)] := by
  refine aggregateOne_first_result_shape _ _ ?_
  intro p hp r hr
  simp only [List.mem_singleton] at hp
  subst hp
  simp only [List.mem_cons, List.mem_singleton, List.not_mem_nil] at hr
  rcases hr with h1 | h1
  · subst h1; exact ⟨⟨[3], "int32"⟩, rfl, by decide⟩
  · rcases h1 with h1 | h1
    · subst h1; exact ⟨⟨[5], "int64"⟩, rfl, by decide⟩
    · exact absurd h1 (by simp)

/-! ## C7 -/

/-- C7: when the scaling transform reports infeasibility (the
`ValueError` path) for a combination that reached the scaling stage,
that single (point, result name) combination is skipped: the step
yields no metric invocation, and the result-name loop continues with
the accumulated results and metric log unchanged. -/
theorem scaling_infeasible_skips (v : Validation) (nk : Nat × Nat)
    (calcFn : MetricCalc) (nMatched : Matched) (meta : Meta)
    (result : ResultName) (method : String) (t0 t1 : MTable) (lbl : String)
    (idx : Nat)
    (h1 : resolveData nk.1 nk.2 nMatched (dskeyOf result) = .ok t0)
    (h2 : projectCols t0 result = .ok t1)
    (h3 : (droplevelRename t1 (buildRenameDict result)).rows.length ≠ 0)
    (h4 : v.scaling = some method)
    (h5 : lookupA (buildRenameDict result) v.scaling_ref = some lbl)
    (h6 : (droplevelRename t1 (buildRenameDict result)).cols.findIdx?
        (fun c => decide (c = lbl)) = some idx)
    (h7 : v.scale method (droplevelRename t1 (buildRenameDict result)) idx = none) :
    stepResult v nk calcFn nMatched meta result = .ok none
    ∧ ∀ acc log rest,
        runResults v nk calcFn nMatched meta acc log (result :: rest)
          = runResults v nk calcFn nMatched meta acc log rest := by
  have hs : stepResult v nk calcFn nMatched meta result = .ok none := by
    simp [stepResult, h1, h2, h3, h4, h5, h6, h7]
  exact ⟨hs, fun acc log rest => by simp [runResults, hs]⟩

/-- Witness for the C7 theorem: a concrete configuration whose scaling
transform always reports infeasibility skips the combination and leaves
the loop state untouched. -/
theorem scaling_infeasible_skips_witness :
    stepResult vScaleFail (2, 2)
        (fun t _ => [("n_obs", ⟨[(t.rows.length : Int)], "int32"⟩)])
        [(["A", "B"], mtAB)] (Sum.inr [1, 2, 3]) [("A", "c"), ("B", "c")]
      = .ok none
    ∧ runResults vScaleFail (2, 2)
        (fun t _ => [("n_obs", ⟨[(t.rows.length : Int)], "int32"⟩)])
        [(["A", "B"], mtAB)] (Sum.inr [1, 2, 3]) [] [] [[("A", "c"), ("B", "c")]]
      = runResults vScaleFail (2, 2)
        (fun t _ => [("n_obs", ⟨[(t.rows.length : Int)], "int32"⟩)])
        [(["A", "B"], mtAB)] (Sum.inr [1, 2, 3]) [] [] [] := by
  have h := scaling_infeasible_skips vScaleFail (2, 2)
    (fun t _ => [("n_obs", ⟨[(t.rows.length : Int)], "int32"⟩)])
    [(["A", "B"], mtAB)] (Sum.inr [1, 2, 3]) [("A", "c"), ("B", "c")]
    "lin_cdf_match" mtAB mtAB "ref" 0 rfl rfl (by decide) rfl rfl rfl rfl
  exact ⟨h.1, h.2 [] [] []⟩

/-! ## C8 -/

theorem runResults_metricLog (v : Validation) (nk : Nat × Nat)
    (calcFn : MetricCalc) (nMatched : Matched) (meta : Meta) :
    ∀ rs acc log acc2 log2,
      runResults v nk calcFn nMatched meta acc log rs = .ok (acc2, log2) →
      ∀ e ∈ log2, e ∈ log ∨ e.2 = meta := by
  intro rs
  induction rs with
  | nil =>
      intro acc log acc2 log2 h e he
      simp only [runResults, Except.ok.injEq, Prod.mk.injEq] at h
      exact Or.inl (by rw [h.2]; exact he)
  | cons r rest ih =>
      intro acc log acc2 log2 h e he
      cases hs : stepResult v nk calcFn nMatched meta r with
      | error err => simp only [runResults, hs] at h; exact Except.noConfusion h
      | ok o =>
          cases o with
          | none =>
              simp only [runResults, hs] at h
              exact ih acc log acc2 log2 h e he
          | some pr =>
              obtain ⟨name, pp⟩ := pr
              simp only [runResults, hs] at h
              have h2 := ih _ _ _ _ h e he
              rcases h2 with hmem | hmeta
              · rcases List.mem_append.mp hmem with h1 | h1
                · exact Or.inl h1
                · simp only [List.mem_singleton] at h1
                  exact Or.inr (by rw [h1])
              · exact Or.inr hmeta

theorem runMetrics_metricLog (v : Validation)
    (matchedN : List ((Nat × Nat) × Matched)) (meta : Meta) :
    ∀ ms acc log acc2 log2,
      runMetrics v matchedN meta acc log ms = .ok (acc2, log2) →
      ∀ e ∈ log2, e ∈ log ∨ e.2 = meta := by
  intro ms
  induction ms with
  | nil =>
      intro acc log acc2 log2 h e he
      simp only [runMetrics, Except.ok.injEq, Prod.mk.injEq] at h
      exact Or.inl (by rw [h.2]; exact he)
  | cons m rest ih =>
      obtain ⟨nk, calcFn⟩ := m
      intro acc log acc2 log2 h e he
      cases hr : runResults v nk calcFn ((lookupA matchedN nk).getD []) meta acc
          log (v.get_result_names nk.2) with
      | error err => simp only [runMetrics, hr] at h; exact Except.noConfusion h
      | ok q =>
          obtain ⟨a2, l2⟩ := q
          simp only [runMetrics, hr] at h
          have h2 := ih a2 l2 acc2 log2 h e he
          rcases h2 with h2 | h2
          · exact runResults_metricLog v nk calcFn _ meta _ acc log a2 l2 hr e h2
          · exact Or.inr h2

theorem processPoint_metricLog (v : Validation) (job : List Int)
    (p : Int × Int × Int) (acc : Results) (mlog : List Nat) (clog : MetricLog)
    (acc2 : Results) (mlog2 : List Nat) (clog2 : MetricLog)
    (h : processPoint v job p acc mlog clog = .ok (acc2, mlog2, clog2)) :
    ∀ e ∈ clog2, e ∈ clog
      ∨ e.2 = (if v.cell_based_jobs then Sum.inl p else Sum.inr job) := by
  intro e he
  by_cases hd : (v.get_data p.1 p.2.1 p.2.2).length = 0
  · simp only [processPoint, hd, if_true] at h
    simp only [Except.ok.injEq, Prod.mk.injEq] at h
    exact Or.inl (by rw [h.2.2]; exact he)
  · cases hb : buildMatchedN v.temp_matching (v.get_data p.1 p.2.1 p.2.2)
        v.temporal_ref (v.metrics_c.map Prod.fst) with
    | mk matchedN calls =>
        cases hm : runMetrics v matchedN
            (if v.cell_based_jobs then Sum.inl p else Sum.inr job) acc clog
            v.metrics_c with
        | error err => simp only [processPoint, hd, if_false, hb, hm] at h; exact Except.noConfusion h
        | ok q =>
            obtain ⟨a2, c2⟩ := q
            simp only [processPoint, hd, if_false, hb, hm] at h
            simp only [Except.ok.injEq, Prod.mk.injEq] at h
            have he2 : e ∈ c2 := by rw [h.2.2]; exact he
            exact runMetrics_metricLog v matchedN _ v.metrics_c acc clog a2 c2
              hm e he2

theorem processPoints_metricLog (v : Validation) (job : List Int) :
    ∀ pts acc mlog clog acc2 mlog2 clog2,
      processPoints v job acc mlog clog pts = .ok (acc2, mlog2, clog2) →
      ∀ e ∈ clog2, e ∈ clog
        ∨ ∃ p ∈ pts,
            e.2 = (if v.cell_based_jobs then Sum.inl p else Sum.inr job) := by
  intro pts
  induction pts with
  | nil =>
      intro acc mlog clog acc2 mlog2 clog2 h e he
      simp only [processPoints, Except.ok.injEq, Prod.mk.injEq] at h
      exact Or.inl (by rw [h.2.2]; exact he)
  | cons p rest ih =>
      intro acc mlog clog acc2 mlog2 clog2 h e he
      cases hp : processPoint v job p acc mlog clog with
      | error err => simp only [processPoints, hp] at h; exact Except.noConfusion h
      | ok q =>
          obtain ⟨a2, m2, c2⟩ := q
          simp only [processPoints, hp] at h
          have h2 := ih a2 m2 c2 acc2 mlog2 clog2 h e he
          rcases h2 with h2 | ⟨p2, hp2, hm2⟩
          · have h3 := processPoint_metricLog v job p acc mlog clog a2 m2 c2 hp e h2
            rcases h3 with h3 | h3
            · exact Or.inl h3
            · exact Or.inr ⟨p, by simp, h3⟩
          · exact Or.inr ⟨p2, by simp [hp2], hm2⟩

/-- C8: every metric-calculator invocation of a `calc` run receives as
its point-meta argument the resolved (gpi, lon, lat) triple of some
enumerated grid point when the configuration is cell-based, and exactly
the original job tuple when it is point-based. -/
theorem metric_meta_granularity (v : Validation) (job : List Int) (out : CalcOut)
    (h : calcMethod v job = .ok out) :
    (v.cell_based_jobs = false → ∀ e ∈ out.metricLog, e.2 = Sum.inr job)
    ∧ (v.cell_based_jobs = true → ∀ e ∈ out.metricLog,
        ∃ p ∈ v.grid_points_for_cell job, e.2 = Sum.inl p) := by
  cases hp : processPoints v job [] [] []
      (if v.cell_based_jobs then v.grid_points_for_cell job
       else [(job.getD 0 0, job.getD 1 0, job.getD 2 0)]) with
  | error err => simp only [calcMethod, hp] at h; exact Except.noConfusion h
  | ok q =>
      obtain ⟨results, mlog, clog⟩ := q
      cases hc : compactResults results with
      | error err => simp only [calcMethod, hp, hc] at h; exact Except.noConfusion h
      | ok c =>
          simp only [calcMethod, hp, hc] at h
          injection h with h2
          subst h2
          constructor
          · intro hcb e he
            have h3 := processPoints_metricLog v job _ [] [] [] results mlog
              clog hp e he
            rcases h3 with h3 | ⟨p, hp2, hm⟩
            · exact absurd h3 (by simp)
            · rw [hcb] at hm
              simpa using hm
          · intro hcb e he
            have h3 := processPoints_metricLog v job _ [] [] [] results mlog
              clog hp e he
            rcases h3 with h3 | ⟨p, hp2, hm⟩
            · exact absurd h3 (by simp)
            · rw [hcb] at hm hp2
              exact ⟨p, by simpa using hp2, by simpa using hm⟩

/-- Witness for the C8 theorem: the point-based run `calcMethod
vPointEx [7, 1, 2]` invokes its metric calculator with the original job
tuple as the point meta. -/
theorem metric_meta_granularity_witness :
    outPointEx.metricLog.headI.2 = Sum.inr [7, 1, 2] := by
  exact (metric_meta_granularity vPointEx [7, 1, 2] outPointEx rfl).1 rfl
    outPointEx.metricLog.headI (List.mem_cons_self _ _)

/-! ## C9 -/

/-- C9: `calc` assigns no attribute of the object; threaded as a state
transformer over the fields it reads, it returns the state unchanged,
so a second call on that state with the same job yields the identical
result. -/
theorem calc_idempotent (v : Validation) (job : List Int) :
    (calcSt v job).1 = v
    ∧ (calcSt (calcSt v job).1 job).2 = (calcSt v job).2 :=
  ⟨rfl, rfl⟩

/-! ## C10 -/

theorem entriesFor_ok_lookup (fname : String) :
    ∀ rs xs, entriesFor fname rs = .ok xs →
      ∀ r ∈ rs, lookupA r fname ≠ none := by
  intro rs
  induction rs with
  | nil => intro xs h r hr; simp at hr
  | cons r0 rest ih =>
      intro xs h r hr
      cases he : entryFor fname r0 with
      | error e => simp only [entriesFor, he] at h; exact Except.noConfusion h
      | ok x =>
          cases ht : entriesFor fname rest with
          | error e => simp only [entriesFor, he, ht] at h; exact Except.noConfusion h
          | ok xs2 =>
              rcases List.mem_cons.mp hr with h1 | h1
              · subst h1
                intro hl
                simp [entryFor, hl] at he
              · exact ih xs2 ht r h1

theorem aggFields_ok_names (rs : List PPResult) :
    ∀ fields out, aggFields rs fields = .ok out →
      out.map Prod.fst = fields.map Prod.fst := by
  intro fields
  induction fields with
  | nil =>
      intro out h
      simp only [aggFields, Except.ok.injEq] at h
      rw [← h]
  | cons p fields ih =>
      obtain ⟨fname, fv⟩ := p
      intro out h
      cases he : entriesFor fname rs with
      | error e => simp only [aggFields, he] at h; exact Except.noConfusion h
      | ok es =>
          cases ha : aggFields rs fields with
          | error e => simp only [aggFields, he, ha] at h; exact Except.noConfusion h
          | ok out2 =>
              simp only [aggFields, he, ha, Except.ok.injEq] at h
              rw [← h]
              simp [ih out2 ha]

theorem aggFields_ok_entries (rs : List PPResult) :
    ∀ fields out, aggFields rs fields = .ok out →
      ∀ p ∈ fields, ∃ es, entriesFor p.1 rs = .ok es := by
  intro fields
  induction fields with
  | nil => intro out h p hp; simp at hp
  | cons q fields ih =>
      obtain ⟨fname, fv⟩ := q
      intro out h p hp
      cases he : entriesFor fname rs with
      | error e => simp only [aggFields, he] at h; exact Except.noConfusion h
      | ok es =>
          cases ha : aggFields rs fields with
          | error e => simp only [aggFields, he, ha] at h; exact Except.noConfusion h
          | ok out2 =>
              rcases List.mem_cons.mp hp with h1 | h1
              · subst h1; exact ⟨es, he⟩
              · exact ih out2 ha p h1

/-- C10: aggregation is driven by the fields of the first collected
per-point result: a successful aggregation's field names are exactly
the first result's (field names appearing only in later results are
omitted), and if any collected result lacks a field name present in the
first one, aggregation fails with an error that `compact_results`
construction propagates (fatal to the job) instead of skipping. -/
theorem aggregation_uses_first_result_fields (r0 : PPResult)
    (rest : List PPResult) :
    (∀ out, aggregateOne (r0 :: rest) = .ok out →
        out.map Prod.fst = r0.map Prod.fst)
    ∧ (∀ fname, fname ∈ r0.map Prod.fst →
        (∃ r, r ∈ r0 :: rest ∧ lookupA r fname = none) →
        ∀ out, aggregateOne (r0 :: rest) ≠ .ok out)
    ∧ (∀ name rest2 e, aggregateOne (r0 :: rest) = .error e →
        compactResults ((name, r0 :: rest) :: rest2) = .error e) := by
  refine ⟨?_, ?_, ?_⟩
  · intro out h
    exact aggFields_ok_names (r0 :: rest) r0 out h
  · rintro fname hf ⟨r, hr, hnone⟩ out hok
    obtain ⟨p, hp, hp1⟩ := List.mem_map.mp hf
    obtain ⟨es, hes⟩ := aggFields_ok_entries (r0 :: rest) r0 out hok p hp
    rw [hp1] at hes
    exact entriesFor_ok_lookup fname (r0 :: rest) es hes r hr hnone
  · intro name rest2 e h
    simp [compactResults, h]

/-- Witness for the C10 theorem: a successful aggregation keeps exactly
the first result's field names; a second point lacking the field makes
aggregation, and hence the compact-result construction, fail with
`KeyError`. -/
theorem aggregation_uses_first_result_fields_witness :
    ([("a", (⟨[1, 2], "int32"⟩ : Field))]).map Prod.fst
        = ([("a", (⟨[1], "int32"⟩ : Field))] : PPResult).map Prod.fst
    ∧ aggregateOne [[("a", (⟨[1], "int32"⟩ : Field))], []] ≠ .ok []
    ∧ compactResults [([("A", "c")], [[("a", (⟨[1], "int32"⟩ : Field))], []])]
        = .error "KeyError" := by
  refine ⟨?_, ?_, ?_⟩
  · exact (aggregation_uses_first_result_fields
      [("a", (⟨[1], "int32"⟩ : Field))] [[("a", ⟨[2], "int32"⟩)]]).1
      [("a", ⟨[1, 2], "int32"⟩)] rfl
  · exact (aggregation_uses_first_result_fields
      [("a", (⟨[1], "int32"⟩ : Field))] [[]]).2.1 "a" (by decide)
      ⟨[], by simp, rfl⟩ []
  · exact (aggregation_uses_first_result_fields
      [("a", (⟨[1], "int32"⟩ : Field))] [[]]).2.2 [("A", "c")] [] "KeyError" rfl

end Pytesmo
